import Mathlib

/-!
Verification of the AG-UI protocol demo repository.

This file embeds the state-manipulating parts of the repository's
frontend components (AgentStateDisplay, StepsFeedback,
InterruptHumanInTheLoop, TaskPlannerDisplay, server.js) as Lean
definitions, together with models of the state reconciler and the
suspension controller described by the specification (whose code lives
in the CopilotKit library, outside this repository), and proves the
specified properties about them.
-/

/-! ## Approval ledger (AgentStateDisplay) -/

/-- A pending action proposed by the agent, from the `PendingAction`
interface of AgentStateDisplay. -/
structure PendingAction where
  id : String
  action_type : String
  description : String
  deriving Repr, DecidableEq

/-- The shared agent state, from the `AgentState` interface of
AgentStateDisplay. -/
structure AgentState where
  message_count : Nat
  last_topic : String
  pending_actions : List PendingAction
  approved_action_ids : List String
  rejected_action_ids : List String
  awaiting_approval : Bool
  is_processing : Bool
  execution_results : List String
  error_message : Option String
  deriving Repr, DecidableEq

/-- The initial state passed to `useCoAgent` in AgentStateDisplay. -/
def initAgentState : AgentState :=
  { message_count := 0
    last_topic := ""
    pending_actions := []
    approved_action_ids := []
    rejected_action_ids := []
    awaiting_approval := false
    is_processing := false
    execution_results := []
    error_message := none }

/-- `handleApprove` from AgentStateDisplay: appends the action id to
`approved_action_ids` and filters it out of `rejected_action_ids`. -/
def handleApprove (actionId : String) (prev : AgentState) : AgentState :=
  { prev with
    approved_action_ids := prev.approved_action_ids ++ [actionId]
    rejected_action_ids := prev.rejected_action_ids.filter (fun id => id != actionId) }

/-- `handleReject` from AgentStateDisplay: appends the action id to
`rejected_action_ids` and filters it out of `approved_action_ids`. -/
def handleReject (actionId : String) (prev : AgentState) : AgentState :=
  { prev with
    rejected_action_ids := prev.rejected_action_ids ++ [actionId]
    approved_action_ids := prev.approved_action_ids.filter (fun id => id != actionId) }

/-- One approve/reject click in the approval UI. -/
inductive ApprovalOp where
  | approve (id : String)
  | reject (id : String)
  deriving Repr, DecidableEq

/-- Apply one approval operation to the agent state. -/
def applyApprovalOp (s : AgentState) : ApprovalOp → AgentState
  | .approve id => handleApprove id s
  | .reject id => handleReject id s

/-- Apply a finite sequence of approve/reject operations in order. -/
def applyApprovalOps (s : AgentState) (ops : List ApprovalOp) : AgentState :=
  ops.foldl applyApprovalOp s

/-- The decision taken by the last operation of `ops` that touches `id`:
`some true` for approve, `some false` for reject, `none` when no
operation touches `id`. -/
def lastDecision (id : String) : List ApprovalOp → Option Bool
  | [] => none
  | op :: rest =>
    match lastDecision id rest with
    | some b => some b
    | none =>
      match op with
      | .approve j => if j = id then some true else none
      | .reject j => if j = id then some false else none

theorem mem_approved_handleApprove {id a : String} {s : AgentState} :
    id ∈ (handleApprove a s).approved_action_ids ↔
      id ∈ s.approved_action_ids ∨ id = a := by
  simp [handleApprove]

theorem mem_rejected_handleApprove {id a : String} {s : AgentState} :
    id ∈ (handleApprove a s).rejected_action_ids ↔
      id ∈ s.rejected_action_ids ∧ id ≠ a := by
  simp [handleApprove, List.mem_filter]

theorem mem_rejected_handleReject {id a : String} {s : AgentState} :
    id ∈ (handleReject a s).rejected_action_ids ↔
      id ∈ s.rejected_action_ids ∨ id = a := by
  simp [handleReject]

theorem mem_approved_handleReject {id a : String} {s : AgentState} :
    id ∈ (handleReject a s).approved_action_ids ↔
      id ∈ s.approved_action_ids ∧ id ≠ a := by
  simp [handleReject, List.mem_filter]

/-- Core invariant: after a sequence of operations, membership of `id`
in the two decision lists is determined by the last decision on `id`,
and is unchanged from the starting state when no operation touches `id`. -/
theorem approval_tracking (id : String) (ops : List ApprovalOp) (s0 : AgentState) :
    match lastDecision id ops with
    | some true =>
        id ∈ (applyApprovalOps s0 ops).approved_action_ids ∧
        id ∉ (applyApprovalOps s0 ops).rejected_action_ids
    | some false =>
        id ∈ (applyApprovalOps s0 ops).rejected_action_ids ∧
        id ∉ (applyApprovalOps s0 ops).approved_action_ids
    | none =>
        (id ∈ (applyApprovalOps s0 ops).approved_action_ids ↔
          id ∈ s0.approved_action_ids) ∧
        (id ∈ (applyApprovalOps s0 ops).rejected_action_ids ↔
          id ∈ s0.rejected_action_ids) := by
  induction ops generalizing s0 with
  | nil => simp [applyApprovalOps, lastDecision]
  | cons op rest ih =>
    have step : applyApprovalOps s0 (op :: rest) =
        applyApprovalOps (applyApprovalOp s0 op) rest := rfl
    have ihs := ih (applyApprovalOp s0 op)
    rw [step]
    cases op with
    | approve j =>
      by_cases hj : j = id
      · subst hj
        simp only [lastDecision]
        cases hrest : lastDecision j rest with
        | none =>
          simp only [hrest] at ihs
          simp only [hrest, if_pos rfl]
          constructor
          · exact ihs.1.mpr (mem_approved_handleApprove.mpr (Or.inr rfl))
          · intro hmem
            exact (mem_rejected_handleApprove.mp (ihs.2.mp hmem)).2 rfl
        | some b =>
          simp only [hrest] at ihs ⊢
          cases b <;> simpa using ihs
      · simp only [lastDecision]
        cases hrest : lastDecision id rest with
        | none =>
          simp only [hrest] at ihs
          have hne : id ≠ j := fun h => hj h.symm
          simp only [hrest, if_neg hj]
          simp only [applyApprovalOp] at ihs ⊢
          constructor
          · rw [ihs.1, mem_approved_handleApprove]
            exact ⟨fun h => h.elim (fun h => h) (fun h => absurd h hne), Or.inl⟩
          · rw [ihs.2, mem_rejected_handleApprove]
            exact ⟨And.left, fun h => ⟨h, hne⟩⟩
        | some b =>
          simp only [hrest] at ihs ⊢
          cases b <;> simpa using ihs
    | reject j =>
      by_cases hj : j = id
      · subst hj
        simp only [lastDecision]
        cases hrest : lastDecision j rest with
        | none =>
          simp only [hrest] at ihs
          simp only [hrest, if_pos rfl]
          constructor
          · exact ihs.2.mpr (mem_rejected_handleReject.mpr (Or.inr rfl))
          · intro hmem
            exact (mem_approved_handleReject.mp (ihs.1.mp hmem)).2 rfl
        | some b =>
          simp only [hrest] at ihs ⊢
          cases b <;> simpa using ihs
      · simp only [lastDecision]
        cases hrest : lastDecision id rest with
        | none =>
          simp only [hrest] at ihs
          have hne : id ≠ j := fun h => hj h.symm
          simp only [hrest, if_neg hj]
          simp only [applyApprovalOp] at ihs ⊢
          constructor
          · rw [ihs.1, mem_approved_handleReject]
            exact ⟨And.left, fun h => ⟨h, hne⟩⟩
          · rw [ihs.2, mem_rejected_handleReject]
            exact ⟨fun h => h.elim (fun h => h) (fun h => absurd h hne), Or.inl⟩
        | some b =>
          simp only [hrest] at ihs ⊢
          cases b <;> simpa using ihs

/-- Claim C1: for every action id and every finite sequence of
approve/reject operations applied to the agent state, the id ends up in
at most one of `approved_action_ids` and `rejected_action_ids`, the
last operation on the id determines which list it belongs to, and in
particular approve "a1" followed by reject "a1" leaves "a1" in the
rejected list and not in the approved list. -/
theorem approval_exclusivity (ops : List ApprovalOp) (id : String) :
    (¬(id ∈ (applyApprovalOps initAgentState ops).approved_action_ids ∧
       id ∈ (applyApprovalOps initAgentState ops).rejected_action_ids)) ∧
    (lastDecision id ops = some true →
      id ∈ (applyApprovalOps initAgentState ops).approved_action_ids ∧
      id ∉ (applyApprovalOps initAgentState ops).rejected_action_ids) ∧
    (lastDecision id ops = some false →
      id ∈ (applyApprovalOps initAgentState ops).rejected_action_ids ∧
      id ∉ (applyApprovalOps initAgentState ops).approved_action_ids) ∧
    ("a1" ∈ (applyApprovalOps initAgentState
        [ApprovalOp.approve "a1", ApprovalOp.reject "a1"]).rejected_action_ids ∧
     "a1" ∉ (applyApprovalOps initAgentState
        [ApprovalOp.approve "a1", ApprovalOp.reject "a1"]).approved_action_ids) := by
  refine ⟨?_, ?_, ?_, ?_⟩
  · intro hmem
    have h := approval_tracking id ops initAgentState
    cases hl : lastDecision id ops with
    | none =>
      rw [hl] at h
      have : id ∈ initAgentState.approved_action_ids := h.1.mp hmem.1
      simp [initAgentState] at this
    | some b =>
      rw [hl] at h
      cases b with
      | true => exact h.2 hmem.2
      | false => exact h.2 hmem.1
  · intro hl
    have h := approval_tracking id ops initAgentState
    rw [hl] at h
    exact h
  · intro hl
    have h := approval_tracking id ops initAgentState
    rw [hl] at h
    exact h
  · have h := approval_tracking "a1"
      [ApprovalOp.approve "a1", ApprovalOp.reject "a1"] initAgentState
    have hl : lastDecision "a1" [ApprovalOp.approve "a1", ApprovalOp.reject "a1"] =
        some false := by decide
    rw [hl] at h
    exact h

/-- Witness for C1: instantiates the theorem at the approve-then-reject
scenario and discharges the last-decision hypothesis concretely. -/
theorem approval_exclusivity_witness :
    "a1" ∈ (applyApprovalOps initAgentState
        [ApprovalOp.approve "a1", ApprovalOp.reject "a1"]).rejected_action_ids ∧
    "a1" ∉ (applyApprovalOps initAgentState
        [ApprovalOp.approve "a1", ApprovalOp.reject "a1"]).approved_action_ids :=
  (approval_exclusivity [ApprovalOp.approve "a1", ApprovalOp.reject "a1"] "a1").2.2.1
    (by decide)

/-- Claim C2 counterexample: approving the same action twice does not
yield the same state as approving it once, because `handleApprove`
appends the id unconditionally and the approved list gains a duplicate
entry. -/
theorem approval_not_idempotent :
    handleApprove "a1" (handleApprove "a1" initAgentState) ≠
      handleApprove "a1" initAgentState := by
  decide

/-- Claim C2 (amended): repeating `handleApprove` only appends a
duplicate of the id to the approved list — membership in the approved
list is unchanged and the rejected list is literally unchanged — and
symmetrically for `handleReject`. -/
theorem approval_idempotent_up_to_membership (id : String) (s : AgentState) :
    ((handleApprove id (handleApprove id s)).approved_action_ids =
        (handleApprove id s).approved_action_ids ++ [id]) ∧
    (∀ x, x ∈ (handleApprove id (handleApprove id s)).approved_action_ids ↔
        x ∈ (handleApprove id s).approved_action_ids) ∧
    ((handleApprove id (handleApprove id s)).rejected_action_ids =
        (handleApprove id s).rejected_action_ids) ∧
    ((handleReject id (handleReject id s)).rejected_action_ids =
        (handleReject id s).rejected_action_ids ++ [id]) ∧
    (∀ x, x ∈ (handleReject id (handleReject id s)).rejected_action_ids ↔
        x ∈ (handleReject id s).rejected_action_ids) ∧
    ((handleReject id (handleReject id s)).approved_action_ids =
        (handleReject id s).approved_action_ids) := by
  refine ⟨rfl, ?_, ?_, rfl, ?_, ?_⟩
  · intro x
    by_cases hx : x = id <;> simp [handleApprove, hx]
  · simp [handleApprove, List.filter_filter]
  · intro x
    by_cases hx : x = id <;> simp [handleReject, hx]
  · simp [handleReject, List.filter_filter]

/-- Witness for the amended C2, instantiated at a concrete id and the
initial agent state. -/
theorem approval_idempotent_up_to_membership_witness :
    ("a1" ∈ (handleApprove "a1" (handleApprove "a1" initAgentState)).approved_action_ids ↔
      "a1" ∈ (handleApprove "a1" initAgentState).approved_action_ids) ∧
    (handleApprove "a1" (handleApprove "a1" initAgentState)).rejected_action_ids =
      (handleApprove "a1" initAgentState).rejected_action_ids :=
  ⟨(approval_idempotent_up_to_membership "a1" initAgentState).2.1 "a1",
   (approval_idempotent_up_to_membership "a1" initAgentState).2.2.1⟩

/-! ## StepsFeedback and InterruptHumanInTheLoop (CustomChat) -/

/-- Status of a step in the approval UI, from the `Step` interface of
CustomChat. -/
inductive StepStatus where
  | enabled
  | disabled
  | executing
  deriving Repr, DecidableEq

/-- A step shown in the approval UI, from the `Step` interface of
CustomChat. -/
structure Step where
  description : String
  status : StepStatus
  deriving Repr, DecidableEq

/-- The response sent through `respond`, from the
`StepsFeedbackResponse` interface of CustomChat; `steps` is absent in a
rejection. -/
structure StepsFeedbackResponse where
  accepted : Bool
  steps : Option (List Step)
  deriving Repr, DecidableEq

namespace StepsFeedback

/-- Local component state of StepsFeedback: the local step list and the
recorded decision (`null` until a button is pressed). -/
structure LocalState where
  localSteps : List Step
  accepted : Option Bool
  deriving Repr, DecidableEq

/-- `handleReject` from StepsFeedback: records the decision and responds
with `accepted: false` and no steps. -/
def handleReject (s : LocalState) : LocalState × StepsFeedbackResponse :=
  ({ s with accepted := some false }, { accepted := false, steps := none })

/-- `handleConfirm` from StepsFeedback: records the decision and
responds with `accepted: true` and the steps whose status is enabled. -/
def handleConfirm (s : LocalState) : LocalState × StepsFeedbackResponse :=
  ({ s with accepted := some true },
   { accepted := true
     steps := some (s.localSteps.filter (fun step => step.status == StepStatus.enabled)) })

/-- The action-button block of StepsFeedback is rendered only while no
decision has been recorded (the `accepted === null` guard in the
component's JSX). -/
def actionButtonsRendered (accepted : Option Bool) : Bool :=
  accepted == none

end StepsFeedback

namespace InterruptHumanInTheLoop

/-- `handlePerformSteps` from InterruptHumanInTheLoop: resolves the
LangGraph interrupt with a sentence listing the descriptions of the
enabled steps. -/
def handlePerformSteps (localSteps : List Step) : String :=
  "The user selected the following steps: " ++
    String.intercalate ", "
      ((localSteps.filter (fun step => step.status == StepStatus.enabled)).map
        (fun step => step.description))

end InterruptHumanInTheLoop

/-! ## Suspension controller (modelled from the spec) -/

namespace SuspensionController

/-- Modelled from the spec: the suspension controller's state machine
(spec section 4.3, `IDLE → AWAITING_INPUT → RESUMING → IDLE`). The
controller itself lives in the CopilotKit/LangGraph libraries, outside
this repository; `awaitingInput` carries the suspension payload (the
steps of the interrupt event) and `resuming` carries the client's
resolution value. -/
inductive SuspensionState where
  | idle
  | awaitingInput (steps : List String)
  | resuming (value : String)
  deriving Repr, DecidableEq

/-- Modelled from the spec: the two suspension-misuse errors of spec
section 4.3. -/
inductive ResolveError where
  | AlreadyResolved
  | NoPendingSuspension
  deriving Repr, DecidableEq

/-- Modelled from the spec: `resolve(value)` succeeds exactly when a
suspension is awaiting input, transitioning to `RESUMING` with the
opaque value; it is rejected with `AlreadyResolved` after that
transition and with `NoPendingSuspension` while idle. -/
def resolve (value : String) : SuspensionState → Except ResolveError SuspensionState
  | .awaitingInput _ => .ok (.resuming value)
  | .resuming _ => .error .AlreadyResolved
  | .idle => .error .NoPendingSuspension

/-- Modelled from the spec: the resolution value is threaded back into
the agent unmodified as the result of the suspended operation, forming
part of the next run's input. -/
def nextRunInput : SuspensionState → Option String
  | .resuming v => some v
  | _ => none

end SuspensionController

/-- Claim C3: from `AWAITING_INPUT` exactly one resolution call
succeeds and every subsequent one fails with `AlreadyResolved`; a
resolution while idle fails with `NoPendingSuspension`; and in the
client component, once a response is recorded (`accepted` non-null in
StepsFeedback, as both handlers set it before responding), the buttons
that issue `respond` are no longer rendered. -/
theorem single_flight_suspension (steps : List String) (v w : String) :
    (∃ s', SuspensionController.resolve v
        (SuspensionController.SuspensionState.awaitingInput steps) = .ok s' ∧
      (∀ u, SuspensionController.resolve u s' =
        .error SuspensionController.ResolveError.AlreadyResolved)) ∧
    (SuspensionController.resolve w SuspensionController.SuspensionState.idle =
      .error SuspensionController.ResolveError.NoPendingSuspension) ∧
    (∀ b : Bool, StepsFeedback.actionButtonsRendered (some b) = false) ∧
    (∀ s : StepsFeedback.LocalState,
      StepsFeedback.actionButtonsRendered (StepsFeedback.handleConfirm s).1.accepted = false ∧
      StepsFeedback.actionButtonsRendered (StepsFeedback.handleReject s).1.accepted = false) :=
  ⟨⟨SuspensionController.SuspensionState.resuming v, rfl, fun _ => rfl⟩, rfl,
   fun _ => rfl, fun _ => ⟨rfl, rfl⟩⟩

/-- Claim C4: for a suspension with payload steps ["A", "B"], resolving
with "A" succeeds, the next run's input carries the literal string "A"
unmodified as the suspended operation's result, and a second resolve
call on the same suspension fails. -/
theorem suspension_round_trip :
    SuspensionController.resolve "A"
        (SuspensionController.SuspensionState.awaitingInput ["A", "B"]) =
      .ok (SuspensionController.SuspensionState.resuming "A") ∧
    SuspensionController.nextRunInput
        (SuspensionController.SuspensionState.resuming "A") = some "A" ∧
    (∀ u, SuspensionController.resolve u
        (SuspensionController.SuspensionState.resuming "A") =
      .error SuspensionController.ResolveError.AlreadyResolved) :=
  ⟨rfl, rfl, fun _ => rfl⟩

/-- Claim C9: confirming responds with accepted = true and exactly the
locally enabled steps — a sublist of the local steps (so in their
original order) containing precisely the steps whose status is enabled
— while rejecting responds with accepted = false and carries no steps. -/
theorem steps_feedback_confirm_exact (s : StepsFeedback.LocalState) :
    ((StepsFeedback.handleConfirm s).2.accepted = true) ∧
    (∃ S, (StepsFeedback.handleConfirm s).2.steps = some S ∧
      S.Sublist s.localSteps ∧
      (∀ st : Step, st ∈ S ↔ st ∈ s.localSteps ∧ st.status = StepStatus.enabled)) ∧
    ((StepsFeedback.handleReject s).2.accepted = false) ∧
    ((StepsFeedback.handleReject s).2.steps = none) := by
  refine ⟨rfl, ⟨_, rfl, List.filter_sublist _, ?_⟩, rfl, rfl⟩
  intro st
  simp [List.mem_filter]

/-! ## State reconciler (modelled from the spec) -/

/-- A JSON-like value of the shared-state document (spec section 9:
a small closed set of JSON-like value kinds). -/
inductive JValue where
  | null
  | bool (b : Bool)
  | num (q : ℚ)
  | str (s : String)
  | arr (elems : List JValue)
  | obj (fields : List (String × JValue))

/-- Modelled from the spec: the client's local view of the shared-state
document, a mapping of named fields to values (spec section 3, Shared
State); absent fields are treated as unset. The reconciler's code lives
in the CopilotKit client library, outside this repository. -/
def LocalView : Type := String → Option JValue

/-- Modelled from the spec: `applySnapshot(state)` of spec section 4.2
— replaces the local view entirely, except the fields currently under
active local edit, which keep their local value. -/
def applySnapshot (dirty : List String) (snapshot view : LocalView) : LocalView :=
  fun k => if dirty.contains k then view k else snapshot k

/-- Modelled from the spec: `applyDelta(patch)` of spec section 4.2 —
merges a partial patch field-by-field; a field present in the patch
(array-valued fields included) is wholesale-replaced by the patch's
value, and every other field keeps the local view's value. -/
def applyDelta (patch : List (String × JValue)) (view : LocalView) : LocalView :=
  fun k =>
    match patch.find? (fun p => p.1 == k) with
    | some p => some p.2
    | none => view k

/-- The `STATE_SNAPSHOT{project_name:"Redesign", tasks:[]}` document of
the plan-sync scenario. -/
def redesignSnapshot : LocalView := fun k =>
  if k == "project_name" then some (JValue.str "Redesign")
  else if k == "tasks" then some (JValue.arr [])
  else none

/-- The `STATE_DELTA{tasks:[{id:"t1", priority:"High"}]}` patch of the
plan-sync scenario. -/
def t1Patch : List (String × JValue) :=
  [("tasks",
    JValue.arr [JValue.obj [("id", JValue.str "t1"), ("priority", JValue.str "High")]])]

/-- Claim C6: after applying the Redesign snapshot and then the t1
delta, the view shows project_name "Redesign" and tasks exactly
[{id:"t1", priority:"High"}]; in general a field present in a patch is
wholesale-replaced by the patch's value and every other field is
untouched. -/
theorem plan_sync_snapshot_then_delta (view0 : LocalView) :
    (applyDelta t1Patch (applySnapshot [] redesignSnapshot view0)) "project_name" =
      some (JValue.str "Redesign") ∧
    (applyDelta t1Patch (applySnapshot [] redesignSnapshot view0)) "tasks" =
      some (JValue.arr
        [JValue.obj [("id", JValue.str "t1"), ("priority", JValue.str "High")]]) ∧
    (∀ (view : LocalView) (k : String) (v : JValue),
      applyDelta [(k, v)] view k = some v) ∧
    (∀ (view : LocalView) (k k2 : String) (v : JValue), k2 ≠ k →
      applyDelta [(k, v)] view k2 = view k2) := by
  refine ⟨rfl, rfl, ?_, ?_⟩
  · intro view k v
    simp [applyDelta, List.find?]
  · intro view k k2 v h
    have hb : (k == k2) = false := beq_eq_false_iff_ne.mpr (Ne.symm h)
    simp [applyDelta, List.find?, hb]

/-- Witness for C6: instantiates the general wholesale-replacement part
at concrete fields, discharging the disequality hypothesis. -/
theorem plan_sync_snapshot_then_delta_witness :
    applyDelta [("tasks", JValue.arr [])] redesignSnapshot "project_name" =
      redesignSnapshot "project_name" :=
  (plan_sync_snapshot_then_delta redesignSnapshot).2.2.2 redesignSnapshot
    "tasks" "project_name" (JValue.arr []) (by decide)

/-- Claim C7: applying the same snapshot twice in a row (with the same
set of locally edited fields) yields the same resulting local view as
applying it once. -/
theorem snapshot_idempotent (dirty : List String) (snapshot view : LocalView) :
    applySnapshot dirty snapshot (applySnapshot dirty snapshot view) =
      applySnapshot dirty snapshot view := by
  funext k
  by_cases hk : k ∈ dirty <;> simp [applySnapshot, hk]

/-! ## Task planner (TaskPlannerDisplay) -/

namespace TaskPlanner

/-- Priority levels, from the `Priority` union type of
TaskPlannerDisplay. -/
inductive Priority where
  | Critical
  | High
  | Medium
  | Low
  | Backlog
  deriving Repr, DecidableEq

/-- Project phases, from the `Phase` union type of TaskPlannerDisplay. -/
inductive Phase where
  | Discovery
  | Planning
  | Development
  | Testing
  | Deployment
  | Maintenance
  deriving Repr, DecidableEq

/-- Complexity levels, from the `ComplexityLevel` union type of
TaskPlannerDisplay ("Highly Complex" is written without the space). -/
inductive ComplexityLevel where
  | Trivial
  | Simple
  | Moderate
  | Complex
  | HighlyComplex
  deriving Repr, DecidableEq

/-- Task categories, from the `TaskCategory` union type of
TaskPlannerDisplay. -/
inductive TaskCategory where
  | Research
  | Design
  | Coding
  | Documentation
  | Review
  | Meeting
  | Infrastructure
  | Security
  deriving Repr, DecidableEq

/-- Subtask statuses, from the `SubtaskStatus` union type of
TaskPlannerDisplay (multiword values written in camel case). -/
inductive SubtaskStatus where
  | NotStarted
  | InProgress
  | Blocked
  | Completed
  | Cancelled
  deriving Repr, DecidableEq

/-- A subtask, from the `Subtask` interface of TaskPlannerDisplay. -/
structure Subtask where
  id : String
  title : String
  description : String
  status : SubtaskStatus
  estimated_hours : ℚ
  assignee : String
  deriving Repr, DecidableEq

/-- A task, from the `Task` interface of TaskPlannerDisplay. -/
structure Task where
  id : String
  title : String
  description : String
  complexity : ComplexityLevel
  priority : Priority
  phase : Phase
  categories : List TaskCategory
  subtasks : List Subtask
  dependencies : List String
  estimated_hours : ℚ
  notes : String
  deriving Repr, DecidableEq

/-- The shared task-plan state, from the `TaskPlanState` interface of
TaskPlannerDisplay. -/
structure TaskPlanState where
  project_name : String
  project_description : String
  current_phase : Phase
  tasks : List Task
  selected_priority_filter : Option Priority
  selected_phase_filter : Option Phase
  last_updated : String
  planning_complete : Bool
  deriving Repr, DecidableEq

/-- `handleTaskUpdate` from TaskPlannerDisplay: replaces each task of
`tasks` whose id equals the updated task's id and refreshes
`last_updated` (the `new Date().toISOString()` timestamp is passed in
as `now`). -/
def handleTaskUpdate (updatedTask : Task) (now : String) (prev : TaskPlanState) :
    TaskPlanState :=
  { prev with
    tasks := prev.tasks.map (fun t => if t.id == updatedTask.id then updatedTask else t)
    last_updated := now }

end TaskPlanner

/-- Claim C5: `handleTaskUpdate` replaces exactly the task whose id
equals the updated task's id (position by position: a task at a
position keeps its value unless its id matches, in which case it
becomes the updated task), refreshes `last_updated`, and leaves the
list length and every other field of the shared state unchanged. -/
theorem handleTaskUpdate_frame (t : TaskPlanner.Task) (now : String)
    (prev : TaskPlanner.TaskPlanState) :
    ((TaskPlanner.handleTaskUpdate t now prev).tasks.length = prev.tasks.length) ∧
    (∀ i : Nat, (TaskPlanner.handleTaskUpdate t now prev).tasks[i]? =
      (prev.tasks[i]?).map (fun tk => if tk.id = t.id then t else tk)) ∧
    ((TaskPlanner.handleTaskUpdate t now prev).last_updated = now) ∧
    ((TaskPlanner.handleTaskUpdate t now prev).project_name = prev.project_name) ∧
    ((TaskPlanner.handleTaskUpdate t now prev).project_description =
      prev.project_description) ∧
    ((TaskPlanner.handleTaskUpdate t now prev).current_phase = prev.current_phase) ∧
    ((TaskPlanner.handleTaskUpdate t now prev).selected_priority_filter =
      prev.selected_priority_filter) ∧
    ((TaskPlanner.handleTaskUpdate t now prev).selected_phase_filter =
      prev.selected_phase_filter) ∧
    ((TaskPlanner.handleTaskUpdate t now prev).planning_complete =
      prev.planning_complete) := by
  refine ⟨by simp [TaskPlanner.handleTaskUpdate], ?_, rfl, rfl, rfl, rfl, rfl, rfl, rfl⟩
  intro i
  simp [TaskPlanner.handleTaskUpdate]

/-! ## ProgressBar (TaskPlannerDisplay) -/

/-- JavaScript's `Math.round` on a nonnegative rational: the floor of
the value plus one half. -/
def jsRound (q : ℚ) : ℤ := ⌊q + 1 / 2⌋

/-- The percentage computed by `ProgressBar` in TaskPlannerDisplay:
`total > 0 ? Math.round((completed / total) * 100) : 0`. -/
def progressPercentage (completed total : ℕ) : ℤ :=
  if 0 < total then jsRound ((completed / total : ℚ) * 100) else 0

/-- Claim C10: for completed ≤ total the percentage is the rounding of
100 · completed / total when total is positive, 0 when total is zero
(the division is guarded), and always lies between 0 and 100. -/
theorem progress_percentage_bounded (completed total : ℕ) (h : completed ≤ total) :
    0 ≤ progressPercentage completed total ∧
    progressPercentage completed total ≤ 100 ∧
    (total = 0 → progressPercentage completed total = 0) ∧
    (0 < total → progressPercentage completed total =
      jsRound ((completed / total : ℚ) * 100)) := by
  by_cases ht : 0 < total
  · have htq : (0 : ℚ) < (total : ℚ) := by exact_mod_cast ht
    have hdiv : (completed : ℚ) / (total : ℚ) ≤ 1 :=
      div_le_one_of_le₀ (by exact_mod_cast h) (le_of_lt htq)
    have hdiv0 : (0 : ℚ) ≤ (completed : ℚ) / (total : ℚ) := by positivity
    have hval : progressPercentage completed total =
        jsRound ((completed / total : ℚ) * 100) := if_pos ht
    refine ⟨?_, ?_, fun h0 => absurd h0 (Nat.pos_iff_ne_zero.mp ht), fun _ => hval⟩
    · rw [hval]
      exact Int.floor_nonneg.mpr (by linarith)
    · rw [hval]
      have : ((completed / total : ℚ) * 100 + 1 / 2) < 101 := by linarith
      have hlt : jsRound ((completed / total : ℚ) * 100) < 101 :=
        Int.floor_lt.mpr (by exact_mod_cast this)
      omega
  · have h0 : total = 0 := Nat.eq_zero_of_not_pos ht
    simp [progressPercentage, h0]

/-- Witness for C10: instantiates the bound at completed = 1,
total = 3. -/
theorem progress_percentage_bounded_witness :
    1 ≤ 3 ∧ 0 ≤ progressPercentage 1 3 ∧ progressPercentage 1 3 ≤ 100 :=
  ⟨by decide, (progress_percentage_bounded 1 3 (by decide)).1,
   (progress_percentage_bounded 1 3 (by decide)).2.1⟩

/-! ## Health endpoint (server.js) -/

/-- The body of the `/health` route of server.js:
`res.json({ status: "ok", service: "copilotkit-runtime" })`, as an
association list of string fields. -/
def healthResponse : List (String × String) :=
  [("status", "ok"), ("service", "copilotkit-runtime")]

/-- Field lookup in a string-valued JSON object. -/
def lookupString (k : String) : List (String × String) → Option String
  | [] => none
  | (k2, v) :: rest => if k2 == k then some v else lookupString k rest

/-- Claim C8 counterexample: the health response is not the JSON object
{status: "ok"} — it carries an additional service field. -/
theorem health_response_not_bare_ok :
    healthResponse ≠ [("status", "ok")] := by
  decide

/-- Claim C8 (amended): the health response's status field equals "ok";
the response additionally carries service = "copilotkit-runtime". -/
theorem health_status_ok :
    lookupString "status" healthResponse = some "ok" ∧
    lookupString "service" healthResponse = some "copilotkit-runtime" :=
  ⟨rfl, rfl⟩
